import Mathlib

/-!
Verification of `src/aibaton/progress.py` (terminal progress renderer).

The Python module is shallowly embedded: JSON-like payload values become the
inductive `JVal`; dynamic Python operations that can raise (`len`, slicing of
non-sequences, attribute access on wrongly-typed values, `in` on
non-containers) are modelled in `Except Unit`; functions that cannot raise are
plain Lean functions.  Python strings are modelled as Lean strings, with
character-level operations performed on `String.data`.  Wall-clock elapsed
time, which only decorates output lines, is abstracted out of the output
events (output constructors carry the data-dependent parts of each line).
-/

namespace Progress

/-- A JSON-like Python value: `None`, `bool`, `int`, `str`, `list`, `dict`
(with string keys, as produced by JSON decoding). -/
inductive JVal where
  | jnull : JVal
  | jbool : Bool → JVal
  | jnum : Int → JVal
  | jstr : String → JVal
  | jlist : List JVal → JVal
  | jobj : List (String × JVal) → JVal

open JVal

/-- Python truthiness of a JSON-like value. -/
def truthy : JVal → Bool
  | jnull => false
  | jbool b => b
  | jnum n => n != 0
  | jstr s => s ≠ ""
  | jlist l => !l.isEmpty
  | jobj o => !o.isEmpty

/-- First binding of a key in a dict (Python dict keys are unique; we use the
first binding of the association list). -/
def oLookup : List (String × JVal) → String → Option JVal
  | [], _ => none
  | (k, v) :: r, key => if k = key then some v else oLookup r key

/-- Python `d.get(key)`: `None` when the key is absent. -/
def oGet (o : List (String × JVal)) (k : String) : JVal :=
  (oLookup o k).getD jnull

/-- Python `d.get(key, default)`: the default only when the key is absent. -/
def oGetD (o : List (String × JVal)) (k : String) (d : JVal) : JVal :=
  (oLookup o k).getD d

/-- Python `a or b` on JSON-like values. -/
def pyOr (a b : JVal) : JVal := if truthy a then a else b

/-- Python `v == "lit"` for a string literal: false on any non-string. -/
def pyEqStr (v : JVal) (t : String) : Bool :=
  match v with
  | jstr s => s = t
  | _ => false

/-- A single-quote character, used by the Python `repr` of strings. -/
def squote : Char := Char.ofNat 39

/-- A double-quote character. -/
def dquote : Char := Char.ofNat 34

def squoteS : String := String.mk [squote]

mutual

/-- Python `repr` of a JSON-like value (string escapes are not modelled; no
claim inspects the repr of a string containing quotes). -/
def pyReprOf : JVal → String
  | jnull => "None"
  | jbool b => if b then "True" else "False"
  | jnum n => toString n
  | jstr s => squoteS ++ s ++ squoteS
  | jlist l => "[" ++ reprItems l ++ "]"
  | jobj o => "\x7b" ++ reprPairs o ++ "\x7d"

def reprItems : List JVal → String
  | [] => ""
  | [v] => pyReprOf v
  | v :: r => pyReprOf v ++ ", " ++ reprItems r

def reprPairs : List (String × JVal) → String
  | [] => ""
  | [(k, v)] => squoteS ++ k ++ squoteS ++ ": " ++ pyReprOf v
  | (k, v) :: r => squoteS ++ k ++ squoteS ++ ": " ++ pyReprOf v ++ ", " ++ reprPairs r

end

/-- Python `str(v)`: the string itself for strings, `repr`-style otherwise. -/
def pyStrOf : JVal → String
  | jstr s => s
  | v => pyReprOf v

/-- Python `len(v)`: raises `TypeError` (modelled as `.error`) on values
without a length. -/
def pyLenE : JVal → Except Unit Nat
  | jstr s => .ok s.data.length
  | jlist l => .ok l.length
  | jobj o => .ok o.length
  | _ => .error ()

/-- Python whitespace as stripped by `str.strip()` (ASCII subset). -/
def isPySpace (c : Char) : Bool :=
  c = ' ' || c = '\t' || c = '\n' || c = '\r' || c = Char.ofNat 11 || c = Char.ofNat 12

def stripWhileL (p : Char → Bool) (l : List Char) : List Char :=
  ((l.dropWhile p).reverse.dropWhile p).reverse

/-- Python `s.strip()`. -/
def pyStripWS (s : String) : String := String.mk (stripWhileL isPySpace s.data)

/-- Python `s.strip(c)` for a single strip character. -/
def pyStripCh (c : Char) (s : String) : String :=
  String.mk (stripWhileL (fun d => d = c) s.data)

/-- Characters before the first occurrence of `c` (Python `s.split(c)[0]`). -/
def upToCharL (c : Char) : List Char → List Char
  | [] => []
  | d :: r => if d = c then [] else d :: upToCharL c r

/-- Python `path.rsplit("/", 1)[-1]`: everything after the last slash. -/
def afterLastSlash (s : String) : String :=
  String.mk ((s.data.reverse.takeWhile (fun c => c ≠ '/')).reverse)

def startsWithL : List Char → List Char → Bool
  | _, [] => true
  | [], _ :: _ => false
  | a :: r1, b :: r2 => a = b && startsWithL r1 r2

/-- Substring containment on character lists (Python `needle in haystack`). -/
def hasSubL : List Char → List Char → Bool
  | [], needle => needle.isEmpty
  | c :: r, needle => startsWithL (c :: r) needle || hasSubL r needle

def findSubIdx : List Char → List Char → Option Nat
  | [], needle => if needle.isEmpty then some 0 else none
  | c :: r, needle =>
    if startsWithL (c :: r) needle then some 0 else (findSubIdx r needle).map (· + 1)

/-- Python `s.find(needle)`: first index or `-1`. -/
def pyFind (s needle : String) : Int :=
  match findSubIdx s.data needle.data with
  | some i => (i : Int)
  | none => -1

/-- Python `needle in v` for a string needle: substring test on strings,
`==`-membership on lists, key membership on dicts, `TypeError` otherwise. -/
def pyInStr (needle : String) (v : JVal) : Except Unit Bool :=
  match v with
  | jstr s => .ok (hasSubL s.data needle.data)
  | jlist l => .ok (l.any (fun x => pyEqStr x needle))
  | jobj o => .ok (o.any (fun p => p.1 = needle))
  | _ => .error ()

/-- Python `s.replace("**", "")`: remove each non-overlapping occurrence,
left to right. -/
def removeDoubleStar : List Char → List Char
  | '*' :: '*' :: r => removeDoubleStar r
  | c :: r => c :: removeDoubleStar r
  | [] => []

/-- Python `" ".join(l)` over JSON values: raises unless all elements are
strings. -/
def joinStrsE (l : List JVal) : Except Unit String := do
  let strs ← l.mapM (fun v =>
    match v with
    | jstr s => Except.ok s
    | _ => Except.error ())
  pure (String.intercalate " " strs)

mutual

/-- Count of whitespace-separated words, Python `len(s.split())`. -/
def wordCount : List Char → Nat
  | [] => 0
  | c :: r => if isPySpace c then wordCount r else 1 + wordTail r

def wordTail : List Char → Nat
  | [] => 0
  | c :: r => if isPySpace c then wordCount r else wordTail r

end

/-- The local helper `truncate` in `ProgressPrinter._get_item_summary`
(progress.py:256-257): `(s[:limit] + "...") if len(s) > limit else s`,
on an actual string argument. -/
def truncate (s : String) (limit : Nat) : String :=
  if s.data.length > limit then String.mk (s.data.take limit) ++ "..." else s

/-- The same `truncate` helper applied to an arbitrary value, as the source
does at `truncate(summary, 50)` (progress.py:281): `len` raises on values
without a length, and slicing a list or dict then appending `"..."` raises. -/
def truncateJ (s : JVal) (limit : Nat) : Except Unit JVal := do
  let n ← pyLenE s
  if n > limit then
    match s with
    | jstr t => pure (jstr (String.mk (t.data.take limit) ++ "..."))
    | _ => .error ()
  else pure s

/-- The status-line clamp in `ProgressPrinter._write_status_line`
(progress.py:164-167): `line[:max_width - 3] + "..."` when
`len(line) > max_width`, with `max_width = 80`. -/
def statusLineClamp (line : String) : String :=
  if line.data.length > 80 then String.mk (line.data.take 77) ++ "..." else line

/-- Embedding of `_extract_activity` (progress.py:7-100).  Branches that can
raise in Python (`len`/slice of a non-sized `command`, `.rsplit` on a
non-string `path`, `.get` on a non-dict `content_block`/`delta`, joining a
list with non-string members) return `.error`. -/
def extract_activity (raw : List (String × JVal)) : Except Unit (Option String) := do
  let etype := pyOr (oGet raw "type") (pyOr (oGet raw "event") (jstr ""))
  if pyEqStr etype "reasoning" then
    return some "thinking..."
  if pyEqStr etype "thinking" || pyEqStr etype "thought" then
    return some "thinking..."
  if pyEqStr etype "tool_call" || pyEqStr etype "function_call" || pyEqStr etype "tool_use" then
    let name := pyOr (oGet raw "name") (pyOr (oGet raw "tool") (jstr ""))
    if truthy name then
      return some ("calling " ++ pyStrOf name ++ "...")
    return some "calling tool..."
  if pyEqStr etype "exec.spawn" then
    let cmd0 := pyOr (oGet raw "command") (pyOr (oGet raw "cmd") (jstr ""))
    let cmd ← match cmd0 with
      | jlist l => do
          let j ← joinStrsE (l.take 3)
          pure (jstr j)
      | v => pure v
    if truthy cmd then
      let short ← truncateJ cmd 40
      return some ("running: " ++ pyStrOf short)
    return some "running command..."
  if pyEqStr etype "exec.output" then
    return some "command output..."
  if pyEqStr etype "file.write" || pyEqStr etype "file.create" || pyEqStr etype "write_file" then
    let path := pyOr (oGet raw "path") (pyOr (oGet raw "file") (jstr ""))
    if truthy path then
      match path with
      | jstr p => return some ("writing " ++ afterLastSlash p ++ "...")
      | _ => .error ()
    return some "writing file..."
  if pyEqStr etype "file.read" || pyEqStr etype "read_file" then
    let path := pyOr (oGet raw "path") (pyOr (oGet raw "file") (jstr ""))
    if truthy path then
      match path with
      | jstr p => return some ("reading " ++ afterLastSlash p ++ "...")
      | _ => .error ()
    return some "reading file..."
  if pyEqStr etype "patch.apply" || pyEqStr etype "edit" || pyEqStr etype "apply_patch" then
    let path := pyOr (oGet raw "path") (pyOr (oGet raw "file") (jstr ""))
    if truthy path then
      match path with
      | jstr p => return some ("editing " ++ afterLastSlash p ++ "...")
      | _ => .error ()
    return some "editing file..."
  match oGet raw "item" with
  | jobj it => do
    let item_type := pyOr (oGet it "type") (jstr "")
    if pyEqStr item_type "reasoning" then
      return some "thinking..."
    if pyEqStr item_type "tool_call" || pyEqStr item_type "function_call" then
      let name := pyOr (oGet it "name") (jstr "")
      if truthy name then
        return some ("calling " ++ pyStrOf name ++ "...")
      return some "calling tool..."
    if pyEqStr item_type "agent_message" || pyEqStr item_type "assistant_message"
        || pyEqStr item_type "message" then
      return some "responding..."
  | _ => pure ()
  if pyEqStr etype "thread.started" then
    return some "started..."
  if pyEqStr etype "turn.started" then
    return some "processing..."
  if pyEqStr etype "turn.completed" then
    return some "turn done"
  if pyEqStr etype "item.started" then
    return some "working..."
  if pyEqStr etype "item.completed" then
    return some "item done"
  if pyEqStr etype "content_block_start" then
    match oGetD raw "content_block" (jobj []) with
    | jobj cb => do
      if pyEqStr (oGet cb "type") "tool_use" then
        let name := pyOr (oGet cb "name") (jstr "")
        if truthy name then
          return some ("calling " ++ pyStrOf name ++ "...")
        return some "calling tool..."
      return some "generating..."
    | _ => .error ()
  if pyEqStr etype "content_block_delta" then
    return some "streaming..."
  if pyEqStr etype "message_start" then
    return some "responding..."
  if pyEqStr etype "message_delta" then
    match oGetD raw "delta" (jobj []) with
    | jobj d => do
      let stop := oGet d "stop_reason"
      if truthy stop then
        return some ("stopped: " ++ pyStrOf stop)
    | _ => .error ()
  return none

/-- First present key (even with a falsy value) of an ordered key list in a
dict, as Python `for key in (...): if key in args: val = args[key]; break`. -/
def firstKeyIn (o : List (String × JVal)) : List String → Option JVal
  | [] => none
  | k :: r =>
    match oLookup o k with
    | some v => some v
    | none => firstKeyIn o r

mutual

/-- The nested `find_detail` of `_get_item_summary` (progress.py:346-360).
The source carries a `depth` argument with guard `depth > 2`; here
`fuel = 3 - depth`, so the initial call has fuel 3 and `fuel = 0` is the
depth cap.  A string- or nonempty-list-valued key wins; otherwise recurse
into nested dicts. -/
def find_detail : Nat → List (String × JVal) → String
  | 0, _ => ""
  | fuel + 1, d =>
    match findKeyDetail d ["command", "cmd", "cmdline", "path", "file", "name", "input"] with
    | some s => s
    | none => findInVals fuel (d.map (fun p => p.2))

def findKeyDetail (d : List (String × JVal)) : List String → Option String
  | [] => none
  | k :: r =>
    match oLookup d k with
    | some (jstr s) =>
      if s ≠ "" then some (truncate s 45) else findKeyDetail d r
    | some (jlist l) =>
      if !l.isEmpty then
        some (truncate (String.intercalate " " ((l.take 3).map pyStrOf)) 45)
      else findKeyDetail d r
    | _ => findKeyDetail d r

def findInVals : Nat → List JVal → String
  | _, [] => ""
  | fuel, v :: r =>
    match v with
    | jobj o =>
      let res := find_detail fuel o
      if res ≠ "" then res else findInVals fuel r
    | _ => findInVals fuel r

end

/-- Embedding of `ProgressPrinter._get_item_summary` (progress.py:252-366).
The Python function is annotated to return `str` but can return the raw
(possibly non-string) `name` or `type` value, so the result type is `JVal`;
operations that can raise (`len`/slice of non-sized values, `.split` on
non-strings, `in` on non-containers, `.find` on a dict) return `.error`. -/
def get_item_summary (item : List (String × JVal)) (max_len : Nat) : Except Unit JVal := do
  let item_type := oGetD item "type" (jstr "")
  -- Tool call / function call - show name and key arguments
  if pyEqStr item_type "tool_call" || pyEqStr item_type "function_call"
      || pyEqStr item_type "tool_use" then
    let name := pyOr (oGet item "name") (pyOr (oGet item "tool") (jstr "tool"))
    let args := pyOr (oGet item "arguments")
      (pyOr (oGet item "input") (pyOr (oGet item "args") (jobj [])))
    let detail : String :=
      match args with
      | jobj a =>
        match firstKeyIn a ["path", "file", "command", "cmd", "query", "url", "pattern"] with
        | some v =>
          let v2 : JVal :=
            match v with
            | jlist l => jstr (String.intercalate " " ((l.take 3).map pyStrOf))
            | w => w
          truncate (pyStrOf v2) 35
        | none => ""
      | _ => ""
    if detail ≠ "" then
      return jstr (truncate (pyStrOf name ++ "(" ++ detail ++ ")") max_len)
    return name
  -- Reasoning - try to extract summary or text
  if pyEqStr item_type "reasoning" || pyEqStr item_type "thinking" then
    let summary := pyOr (oGet item "summary") (jstr "")
    if truthy summary then
      let t ← truncateJ summary 50
      return jstr ("thinking: " ++ pyStrOf t)
    let text := pyOr (oGet item "text") (jstr "")
    if truthy text then
      match text with
      | jstr s => do
        let first0 := pyStripWS (String.mk (upToCharL '.' (upToCharL '\n' s.data)))
        let first :=
          if startsWithL first0.data "**".data && hasSubL (first0.data.drop 2) "**".data then
            String.mk (removeDoubleStar first0.data)
          else first0
        return jstr ("thinking: " ++ truncate first 50)
      | _ => .error ()
    return jstr "reasoning"
  -- Message - show brief content preview
  if pyEqStr item_type "agent_message" || pyEqStr item_type "assistant_message"
      || pyEqStr item_type "message" then
    let text0 := pyOr (oGet item "text") (jstr "")
    let text : JVal :=
      if truthy text0 then text0
      else
        match oGet item "content" with
        | jlist (first :: _) =>
          match first with
          | jobj f => oGetD f "text" (jstr "")
          | jstr s => jstr s
          | _ => text0
        | _ => text0
    if truthy text then
      match text with
      | jstr s =>
        return jstr ("message: " ++ truncate (pyStripWS (String.mk (upToCharL '\n' s.data))) 50)
      | _ => .error ()
    return jstr "message"
  -- Exec - show command
  if pyEqStr item_type "exec" then
    let cmd0 := pyOr (oGet item "command") (pyOr (oGet item "cmd") (jstr ""))
    let cmd : JVal :=
      match cmd0 with
      | jlist l => jstr (String.intercalate " " ((l.take 4).map pyStrOf))
      | v => v
    if truthy cmd then
      return jstr ("exec: " ++ truncate (pyStrOf cmd) 50)
    return jstr "exec"
  -- File operations
  if pyEqStr item_type "file_read" || pyEqStr item_type "read_file" then
    let path := pyOr (oGet item "path") (pyOr (oGet item "file") (jstr ""))
    let fname ← if truthy path then
        match path with
        | jstr p => pure (afterLastSlash p)
        | _ => .error ()
      else pure ""
    if fname ≠ "" then
      return jstr ("read: " ++ fname)
    return jstr "read_file"
  if pyEqStr item_type "file_write" || pyEqStr item_type "write_file"
      || pyEqStr item_type "patch" || pyEqStr item_type "apply_patch" then
    let path := pyOr (oGet item "path") (pyOr (oGet item "file") (jstr ""))
    let fname ← if truthy path then
        match path with
        | jstr p => pure (afterLastSlash p)
        | _ => .error ()
      else pure ""
    if fname ≠ "" then
      return jstr ("write: " ++ fname)
    return jstr "write_file"
  -- Shell/command execution (including codex command_execution)
  if pyEqStr item_type "shell" || pyEqStr item_type "bash" || pyEqStr item_type "command"
      || pyEqStr item_type "command_execution" || pyEqStr item_type "local_shell_call" then
    let cmd0 := pyOr (oGet item "command") (pyOr (oGet item "cmd") (pyOr (oGet item "input") (jstr "")))
    let cmd1 : JVal :=
      match cmd0 with
      | jlist l => jstr (String.intercalate " " ((l.take 3).map pyStrOf))
      | v => v
    if truthy cmd1 then
      let hasLc ← pyInStr "-lc" cmd1
      let hasQ ← pyInStr "\"" cmd1
      let cmd2 : JVal ← if hasLc && hasQ then
          match cmd1 with
          | jstr s => do
            let start := pyFind s "-lc"
            if start ≥ 0 then
              pure (jstr (pyStripCh squote (pyStripCh dquote
                (pyStripWS (String.mk (s.data.drop (start.toNat + 3)))))))
            else pure cmd1
          | _ => .error ()
        else pure cmd1
      return jstr ("$ " ++ truncate (pyStrOf cmd2) 55)
    return item_type
  -- Fallback: recursive bounded-depth search for any useful info
  let detail := find_detail 3 item
  if detail ≠ "" then
    if truthy item_type then
      return jstr (pyStrOf item_type ++ ": " ++ detail)
    return jstr detail
  return pyOr item_type (jstr "item")

/-- The recent-activity history update inside `ProgressPrinter.set_activity`
(progress.py:245-248): append when the activity is nonempty and differs from
the last entry, then drop the oldest entry if the history exceeds 10. -/
def set_activity_recent (recent : List String) (activity : String) : List String :=
  if activity ≠ "" && (recent.isEmpty || recent.getLast? != some activity) then
    let r := recent ++ [activity]
    if r.length > 10 then r.drop 1 else r
  else recent

/-- One observable terminal write.  The wall-clock elapsed decoration of each
line is abstracted away (it depends on real time); constructors carry the
data-dependent content of the write. -/
inductive OutEv where
  /-- An in-place status-line redraw (`_write_status_line` reaching its
  `sys.stderr.write` call). -/
  | statusRedraw : OutEv
  /-- A permanent content line from `_flush_line`, with its `is_error` flag
  (which routes it to the error stream in non-TTY mode). -/
  | contentLine : String → Bool → OutEv
  /-- An item line opened without a trailing newline: `"[{elapsed}] ▶ {x} "`
  from `_log_item_started` or `_log_claude_tool_use`. -/
  | openItem : String → OutEv
  /-- A completion mark appended to the open item line: `"✓ ({elapsed})\n"`
  (or `✗` when the flag is false, from `_log_claude_tool_result`). -/
  | closeMark : Bool → OutEv
  /-- A standalone completed line `"[{elapsed}] ✓ {summary}\n"` emitted by
  `_log_item_completed` when no item line is open. -/
  | standaloneItem : String → OutEv
  /-- A bare `"\n"` forcibly terminating a still-open item line. -/
  | breakLine : OutEv
  /-- A turn marker line (`true` = turn started). -/
  | turnLine : Bool → OutEv
  /-- A non-TTY one-line log from `_log_event_brief`. -/
  | briefLine : String → OutEv
deriving DecidableEq

/-- The mutable fields of `ProgressPrinter` touched by event handling,
plus the ordered list of writes performed so far. -/
structure PState where
  label : String
  status : String
  activity : String
  tokenCount : Nat
  eventCount : Nat
  running : Bool
  isTTY : Bool
  streamTokens : Bool
  hasContent : Bool
  itemOpen : Bool
  curLine : String
  recent : List String
  out : List OutEv
deriving DecidableEq

def emit (s : PState) (e : OutEv) : PState := { s with out := s.out ++ [e] }

/-- `_write_status_line` (progress.py:157-171): no-op when not a TTY or when
an item line is open; otherwise one in-place redraw. -/
def write_status_line (s : PState) : PState :=
  if !s.isTTY then s
  else if s.itemOpen then s
  else emit s .statusRedraw

/-- `_flush_line` (progress.py:181-199). -/
def flush_line (s : PState) (text : String) (is_error : Bool) : PState :=
  if s.isTTY then
    let s := { (emit s (.contentLine text is_error)) with hasContent := true }
    if s.running then write_status_line s else s
  else emit s (.contentLine text is_error)

/-- `set_status` (progress.py:233-238). -/
def set_status (s : PState) (st : String) : PState :=
  let s := { s with status := st }
  if s.isTTY && s.running then write_status_line s else s

/-- `set_activity` (progress.py:240-250). -/
def set_activity (s : PState) (a : String) : PState :=
  let s := { s with activity := a, recent := set_activity_recent s.recent a }
  if s.isTTY && s.running then write_status_line s else s

def splitFirstNl : List Char → Option (List Char × List Char)
  | [] => none
  | c :: r =>
    if c = '\n' then some ([], r)
    else (splitFirstNl r).map (fun p => (c :: p.1, p.2))

/-- The `while "\n" in self._current_line` loop of `_update_streaming`
(progress.py:207-210): each iteration splits off the first line and flushes
it when nonempty.  Each iteration consumes at least the newline character,
so fuel equal to the buffer length makes the recursion total without
changing the computed value. -/
def streamLines : Nat → List Char → List String × List Char
  | 0, buf => ([], buf)
  | fuel + 1, buf =>
    match splitFirstNl buf with
    | none => ([], buf)
    | some (line, rest) =>
      let (ls, b) := streamLines fuel rest
      ((if line.isEmpty then [] else [String.mk line]) ++ ls, b)

/-- `_update_streaming` (progress.py:201-210). -/
def update_streaming (s : PState) (text : String) : PState :=
  let buf := s.curLine.data ++ text.data
  let s := { s with tokenCount := s.tokenCount + wordCount text.data }
  let (lines, rest) := streamLines buf.length buf
  let s := lines.foldl (fun st l => flush_line st l false) s
  { s with curLine := String.mk rest }

/-- The shared preamble of `_log_item_started` / `_log_item_completed`
(progress.py:371-372 and 391-392): `item = payload.get("item", {})` followed
by `self._get_item_summary(item) if isinstance(item, dict) else "item"`. -/
def item_summary_of (payload : List (String × JVal)) : Except Unit JVal :=
  match oGetD payload "item" (jobj []) with
  | jobj it => get_item_summary it 60
  | _ => pure (jstr "item")

/-- `_log_item_started` (progress.py:368-386).  The summary is computed
before the lock is taken, so a summariser exception leaves the state
untouched; inside the lock a still-open item line is force-closed. -/
def log_item_started (payload : List (String × JVal)) (s : PState) : Except Unit PState := do
  let summary : JVal ← item_summary_of payload
  let s := if s.itemOpen then { (emit s .breakLine) with itemOpen := false } else s
  let s := emit s (.openItem (pyStrOf summary))
  pure { s with itemOpen := true, hasContent := true }

/-- `_log_item_completed` (progress.py:388-405). -/
def log_item_completed (payload : List (String × JVal)) (s : PState) : Except Unit PState := do
  let summary : JVal ← item_summary_of payload
  if s.itemOpen then
    pure { (emit s (.closeMark true)) with itemOpen := false }
  else
    pure (emit s (.standaloneItem (pyStrOf summary)))

/-- `_log_turn_event` (progress.py:407-426); `started` records which marker
is printed. -/
def log_turn_event (started : Bool) (s : PState) : PState :=
  let s := if s.itemOpen then { (emit s .breakLine) with itemOpen := false } else s
  { (emit s (.turnLine started)) with hasContent := true }

/-- The detail-extraction loop of `_log_claude_tool_use`
(progress.py:447-455): first key with a truthy value wins; `str(val)[:45]`
plus a conditional ellipsis. -/
def toolUseDetail (i : List (String × JVal)) : List String → String
  | [] => ""
  | k :: r =>
    let val := oGet i k
    if truthy val then
      let sv := pyStrOf val
      if sv.data.length > 45 then String.mk (sv.data.take 45) ++ "..." else sv
    else toolUseDetail i r

/-- The `for item in content` loop of `_log_claude_tool_use`
(progress.py:435-473). -/
def toolUseLoop (s : PState) : List JVal → PState
  | [] => s
  | it :: rest =>
    match it with
    | jobj o =>
      if pyEqStr (oGet o "type") "tool_use" then
        let name := oGetD o "name" (jstr "tool")
        let inp := oGetD o "input" (jobj [])
        let detail : String :=
          match inp with
          | jobj i => toolUseDetail i ["command", "pattern", "file_path", "path", "glob", "description"]
          | _ => ""
        let line := if detail ≠ "" then pyStrOf name ++ ": " ++ detail else pyStrOf name
        let s := if s.itemOpen then { (emit s .breakLine) with itemOpen := false } else s
        let s := emit s (.openItem line)
        toolUseLoop { s with itemOpen := true, hasContent := true } rest
      else toolUseLoop s rest
    | _ => toolUseLoop s rest

/-- `_log_claude_tool_use` (progress.py:428-473).  `message.get` raises when
a present `message` field is not a dict. -/
def log_claude_tool_use (payload : List (String × JVal)) (s : PState) : Except Unit PState := do
  match oGetD payload "message" (jobj []) with
  | jobj m =>
    match oGetD m "content" (jlist []) with
    | jlist items => pure (toolUseLoop s items)
    | _ => pure s
  | _ => .error ()

/-- `_log_claude_tool_result` (progress.py:475-501). -/
def log_claude_tool_result (payload : List (String × JVal)) (s : PState) : Except Unit PState := do
  match oGetD payload "message" (jobj []) with
  | jobj m =>
    match oGetD m "content" (jlist []) with
    | jlist items =>
      let has_result := items.any (fun it =>
        match it with
        | jobj o => pyEqStr (oGet o "type") "tool_result"
        | _ => false)
      if !has_result then pure s
      else
        let is_error := items.any (fun it =>
          match it with
          | jobj o => truthy (oGet o "is_error")
          | _ => false)
        if s.itemOpen then
          pure { (emit s (.closeMark (!is_error))) with itemOpen := false }
        else pure s
    | _ => pure s
  | _ => .error ()

/-- `_log_event_brief` (progress.py:503-531).  The `etype in skip_types` set
membership raises on unhashable values; `etype.startswith` raises on
non-strings; `" ".join(name[:2])` raises on non-string list members. -/
def log_event_brief (etype : JVal) (payload : JVal) (activity : Option String)
    (s : PState) : Except Unit PState := do
  match etype with
  | jlist _ => .error ()
  | jobj _ => .error ()
  | _ => pure ()
  if pyEqStr etype "message" || pyEqStr etype "content_block_delta"
      || pyEqStr etype "message_delta" then
    return s
  if pyEqStr etype "item.started" || pyEqStr etype "item.completed"
      || pyEqStr etype "turn.started" || pyEqStr etype "turn.completed"
      || pyEqStr etype "assistant" || pyEqStr etype "user" then
    return s
  match activity with
  | some a =>
    if a ≠ "" then
      return emit s (.briefLine a)
  | none => pure ()
  if pyEqStr etype "exec.spawn" || pyEqStr etype "tool_call" || pyEqStr etype "function_call" then
    match payload with
    | jobj p => do
      let name0 := pyOr (oGet p "name") (pyOr (oGet p "command") (pyOr (oGet p "tool") (jstr "")))
      let name : JVal ← match name0 with
        | jlist l => do
          let j ← joinStrsE (l.take 2)
          pure (jstr j)
        | v => pure v
      let short : JVal ← if (pyStrOf name).data.length > 30 then
          match name with
          | jstr t => pure (jstr (String.mk (t.data.take 30) ++ "..."))
          | _ => .error ()
        else pure name
      return emit s (.briefLine (pyStrOf etype ++ ": " ++ pyStrOf short))
    | _ => .error ()
  let isFile ← match etype with
    | jstr t => pure (startsWithL t.data "file.".data
        || t = "read_file" || t = "write_file" || t = "apply_patch")
    | _ => (.error () : Except Unit Bool)
  if isFile then
    match payload with
    | jobj p => do
      let path := pyOr (oGet p "path") (pyOr (oGet p "file") (jstr ""))
      let fname ← if truthy path then
          match path with
          | jstr t => pure (afterLastSlash t)
          | _ => (.error () : Except Unit String)
        else pure ""
      return emit s (.briefLine (pyStrOf etype ++ ": " ++ fname))
    | _ => .error ()
  return s

def asObj : JVal → List (String × JVal)
  | jobj o => o
  | _ => []

/-- `ProgressPrinter.on_event` (progress.py:533-581).  The event counter is
incremented first; a raise anywhere later aborts the remaining mutations,
which the `Except` propagation mirrors. -/
def on_event (event : List (String × JVal)) (s : PState) : Except Unit PState := do
  let s := { s with eventCount := s.eventCount + 1 }
  let etype := oGet event "type"
  let payload := oGetD event "payload" (jobj [])
  let pObj : Bool := match payload with | jobj _ => true | _ => false
  -- Extract detailed activity from payload
  let activity : Option String ← match payload with
    | jobj p => extract_activity p
    | _ => pure none
  let s := match activity with
    | some a => if a ≠ "" then set_activity s a else s
    | none => s
  -- Log item/turn events as persistent lines
  let s ← if pyEqStr etype "item.started" && pObj then
      log_item_started (asObj payload) s
    else if pyEqStr etype "item.completed" && pObj then
      log_item_completed (asObj payload) s
    else if pyEqStr etype "turn.started" || pyEqStr etype "turn.completed" then
      pure (log_turn_event (pyEqStr etype "turn.started") s)
    else if pyEqStr etype "assistant" && pObj then
      log_claude_tool_use (asObj payload) s
    else if pyEqStr etype "user" && pObj then
      log_claude_tool_result (asObj payload) s
    else if !s.isTTY && truthy etype then
      log_event_brief etype payload activity s
    else pure s
  -- Error line / token streaming
  let s ← if pyEqStr etype "error" then
      match payload with
      | jobj p => do
        let msg := pyOr (oGet p "message") (pyOr (oGet p "error") (jstr (pyStrOf payload)))
        let s := flush_line s ("[error] " ++ pyStrOf msg) true
        let s := set_status s "error"
        pure (set_activity s "")
      | _ => .error ()
    else if s.streamTokens && pObj then
      match oGet (asObj payload) "text" with
      | jstr t =>
        if t ≠ "" then
          let s := update_streaming s t
          if s.activity = "" then pure (set_status s "streaming...") else pure s
        else pure s
      | _ => pure s
    else pure s
  -- Update status based on event type (fallback if no activity)
  if s.activity = "" then
    if pyEqStr etype "thread.started" || pyEqStr etype "turn.started" then
      return set_status s "processing..."
    else if pyEqStr etype "turn.completed" then
      return set_status s "turn completed"
    else if pyEqStr etype "item.completed" then
      return set_status s "item completed"
    else return s
  else return s

/-! ### Atomic-action model of the lock-protected state machine

Every mutation of `_item_line_open` and every terminal write happens inside a
`with self._lock:` block, and (for the two item handlers) the fallible
summary computation happens *before* the lock is taken, so an exception
leaves flag and output untouched.  Each `Act` below is one such lock-protected
block; an arbitrary `List Act` therefore covers every interleaving of the
spinner ticker with (possibly partially-aborted) event handling. -/

/-- The spinner/open-line fields shared by the ticker and the handlers. -/
structure AState where
  itemOpen : Bool
  running : Bool
  isTTY : Bool
deriving DecidableEq

/-- One lock-protected block of `progress.py`. -/
inductive Act where
  /-- One ticker iteration (`_spinner_loop`, progress.py:173-179). -/
  | tick : Act
  /-- `set_status` (progress.py:233-238). -/
  | setStat : Act
  /-- `set_activity` (progress.py:240-250). -/
  | setAct : Act
  /-- `_flush_line` (progress.py:181-199). -/
  | flushL : String → Bool → Act
  /-- The lock block of `_log_item_started` (progress.py:374-386), with the
  already-computed summary. -/
  | itemStart : String → Act
  /-- The lock block of `_log_item_completed` (progress.py:394-405). -/
  | itemDone : String → Act
  /-- The lock block of `_log_turn_event` (progress.py:410-426). -/
  | turnEv : Bool → Act
  /-- One `tool_use` entry's lock block in `_log_claude_tool_use`
  (progress.py:457-473). -/
  | toolUse : String → Act
  /-- The lock block of `_log_claude_tool_result` (progress.py:496-501),
  reached only when a `tool_result` entry exists. -/
  | toolResult : Bool → Act
  /-- `done` setting `self._running = False` (progress.py:584). -/
  | stopRun : Act
  /-- The open-line close in `done` (progress.py:590-593). -/
  | closeAtDone : Act

/-- Output of `_write_status_line`: suppressed when not a TTY or while an
item line is open (progress.py:159-163). -/
def wsl (a : AState) : List OutEv :=
  if a.isTTY && !a.itemOpen then [.statusRedraw] else []

/-- Effect of one lock-protected block on the shared flag and the output. -/
def stepAct (a : AState) : Act → AState × List OutEv
  | .tick => if a.running then (a, wsl a) else (a, [])
  | .setStat => if a.isTTY && a.running then (a, wsl a) else (a, [])
  | .setAct => if a.isTTY && a.running then (a, wsl a) else (a, [])
  | .flushL t e =>
    if a.isTTY then (a, [.contentLine t e] ++ (if a.running then wsl a else []))
    else (a, [.contentLine t e])
  | .itemStart sum =>
    ({ a with itemOpen := true }, (if a.itemOpen then [.breakLine] else []) ++ [.openItem sum])
  | .itemDone sum =>
    if a.itemOpen then ({ a with itemOpen := false }, [.closeMark true])
    else (a, [.standaloneItem sum])
  | .turnEv st =>
    ({ a with itemOpen := false }, (if a.itemOpen then [.breakLine] else []) ++ [.turnLine st])
  | .toolUse line =>
    ({ a with itemOpen := true }, (if a.itemOpen then [.breakLine] else []) ++ [.openItem line])
  | .toolResult isErr =>
    if a.itemOpen then ({ a with itemOpen := false }, [.closeMark (!isErr)])
    else (a, [])
  | .stopRun => ({ a with running := false }, [])
  | .closeAtDone =>
    if a.itemOpen then ({ a with itemOpen := false }, [.breakLine]) else (a, [])

/-- Run a sequence of lock-protected blocks, concatenating their writes. -/
def runActs (a : AState) : List Act → AState × List OutEv
  | [] => (a, [])
  | act :: r =>
    let p := stepAct a act
    let q := runActs p.1 r
    (q.1, p.2 ++ q.2)

/-- The open/closed flag as reconstructed from the output stream alone. -/
def flagStep (b : Bool) : OutEv → Bool
  | .openItem _ => true
  | .closeMark _ => false
  | .breakLine => false
  | _ => b

def flagAfter (b : Bool) (l : List OutEv) : Bool := l.foldl flagStep b

/-- Well-formedness of an output stream starting with open-flag `b`: a status
redraw or a standalone completed line appears only while no item line is
open; an item line opens only while none is open; a close mark or forced
break only while one is open. -/
def wfOut (b : Bool) : List OutEv → Bool
  | [] => true
  | .statusRedraw :: r => !b && wfOut b r
  | .openItem _ :: r => !b && wfOut true r
  | .closeMark _ :: r => b && wfOut false r
  | .breakLine :: r => b && wfOut false r
  | .standaloneItem _ :: r => !b && wfOut b r
  | .contentLine _ _ :: r => wfOut b r
  | .turnLine _ :: r => wfOut b r
  | .briefLine _ :: r => wfOut b r

/-! ### Concrete payloads and states used by the claim theorems -/

/-- A shell item whose command is the list `["bash", "-lc", "echo hi"]`. -/
def shellListItem : List (String × JVal) :=
  [("type", jstr "shell"), ("command", jlist [jstr "bash", jstr "-lc", jstr "echo hi"])]

/-- A shell item whose command is the string `bash -lc "echo hi"`. -/
def shellStrItem : List (String × JVal) :=
  [("type", jstr "shell"), ("command", jstr "bash -lc \"echo hi\"")]

/-- An `item.started`/`item.completed` payload carrying an `exec` item. -/
def itemExecPayload : List (String × JVal) :=
  [("item", jobj [("type", jstr "exec")])]

/-- A Backend-B `user` event whose message content is `content`. -/
def userEvt (content : List JVal) : List (String × JVal) :=
  [("type", jstr "user"), ("payload", jobj [("message", jobj [("content", jlist content)])])]

/-- The render state right after `start("run")` in non-TTY mode. -/
def initNT : PState :=
  { label := "run", status := "starting...", activity := "", tokenCount := 0, eventCount := 0,
    running := true, isTTY := false, streamTokens := true, hasContent := false, itemOpen := false,
    curLine := "", recent := [], out := [] }

/-- A 100-character line, longer than the 80-column status-line clamp. -/
def longLine : String := String.mk (List.replicate 100 'x')

/-- The invariant maintained on `_recent_activities`: at most 10 entries, no
two consecutive entries equal, and no empty entry. -/
def recentInv (l : List String) : Prop :=
  l.length ≤ 10 ∧ l.Chain' (· ≠ ·) ∧ "" ∉ l

end Progress

namespace Progress

open JVal

/-! ### Helper lemmas -/

theorem collapse_ite {α : Type} (c : Prop) [Decidable c] {X R : α}
    (h : X = if c then R else R) : X = R := by
  rw [h, ite_self]

theorem flagAfter_append (b : Bool) (xs ys : List OutEv) :
    flagAfter b (xs ++ ys) = flagAfter (flagAfter b xs) ys := by
  simp [flagAfter, List.foldl_append]

theorem wfOut_append (xs : List OutEv) : ∀ (b : Bool) (ys : List OutEv),
    wfOut b (xs ++ ys) = (wfOut b xs && wfOut (flagAfter b xs) ys) := by
  induction xs with
  | nil => intro b ys; simp [wfOut, flagAfter]
  | cons e r ih =>
    intro b ys
    cases e <;> simp [wfOut, flagAfter, flagStep, List.foldl_cons, ih, Bool.and_assoc]

theorem stepAct_wf (a : AState) (act : Act) :
    wfOut a.itemOpen (stepAct a act).2 = true ∧
    flagAfter a.itemOpen (stepAct a act).2 = (stepAct a act).1.itemOpen := by
  cases act <;>
    (cases a with
     | mk io ru tty =>
       cases io <;> cases ru <;> cases tty <;>
         simp [stepAct, wsl, wfOut, flagAfter, flagStep])

theorem runActs_wf (acts : List Act) : ∀ a : AState,
    wfOut a.itemOpen (runActs a acts).2 = true ∧
    flagAfter a.itemOpen (runActs a acts).2 = (runActs a acts).1.itemOpen := by
  induction acts with
  | nil => intro a; simp [runActs, wfOut, flagAfter]
  | cons act r ih =>
    intro a
    have hs := stepAct_wf a act
    have hr := ih (stepAct a act).1
    simp only [runActs]
    refine ⟨?_, ?_⟩
    · rw [wfOut_append, hs.2]
      simp [hs.1, hr.1]
    · rw [flagAfter_append, hs.2, hr.2]

theorem started_ok (p : List (String × JVal)) (s s1 : PState)
    (h : log_item_started p s = .ok s1) :
    ∃ v : JVal, s1 = { (emit (if s.itemOpen then { (emit s .breakLine) with itemOpen := false } else s)
        (.openItem (pyStrOf v))) with itemOpen := true, hasContent := true } := by
  unfold log_item_started at h
  cases hm : item_summary_of p with
  | error e =>
    rw [hm] at h
    simp [Bind.bind, Except.bind] at h
  | ok v =>
    rw [hm] at h
    simp only [Bind.bind, Except.bind, pure, Except.pure, Except.ok.injEq] at h
    exact ⟨v, h.symm⟩

theorem completed_ok (q : List (String × JVal)) (s s' : PState)
    (h : log_item_completed q s = .ok s') :
    ∃ v : JVal, s' = if s.itemOpen
      then { (emit s (.closeMark true)) with itemOpen := false }
      else emit s (.standaloneItem (pyStrOf v)) := by
  unfold log_item_completed at h
  cases hm : item_summary_of q with
  | error e =>
    rw [hm] at h
    simp [Bind.bind, Except.bind] at h
  | ok v =>
    rw [hm] at h
    simp only [Bind.bind, Except.bind] at h
    refine ⟨v, ?_⟩
    by_cases hio : s.itemOpen
    · simp only [hio, if_true] at h ⊢
      simp only [pure, Except.pure, Except.ok.injEq] at h
      exact h.symm
    · simp only [hio] at h ⊢
      simp only [Bool.false_eq_true, if_false] at h ⊢
      simp only [pure, Except.pure, Except.ok.injEq] at h
      exact h.symm

theorem set_activity_recent_preserves (l : List String) (a : String) (h : recentInv l) :
    recentInv (set_activity_recent l a) := by
  obtain ⟨hlen, hch, hne⟩ := h
  unfold set_activity_recent
  split
  · rename_i hc
    simp only [Bool.and_eq_true, decide_eq_true_eq, Bool.or_eq_true, bne_iff_ne] at hc
    obtain ⟨ha, hlast⟩ := hc
    have hch' : (l ++ [a]).Chain' (· ≠ ·) := by
      rw [List.chain'_append]
      refine ⟨hch, List.chain'_singleton a, ?_⟩
      intro x hx y hy
      simp only [List.head?_cons, Option.mem_def, Option.some.injEq] at hy
      subst hy
      rcases hlast with he | hne'
      · rw [List.isEmpty_iff] at he
        subst he
        simp at hx
      · intro hxa
        subst hxa
        exact hne' (by simpa using hx)
    have hmem : "" ∉ l ++ [a] := by
      intro hm
      rcases List.mem_append.mp hm with h1 | h2
      · exact hne h1
      · simp at h2
        exact ha h2.symm
    show recentInv (if (l ++ [a]).length > 10 then (l ++ [a]).drop 1 else (l ++ [a]))
    split
    · refine ⟨?_, ?_, ?_⟩
      · simp only [List.length_drop, List.length_append, List.length_singleton]
        omega
      · have := hch'.tail
        simpa [List.drop_one] using this
      · intro hm
        exact hmem (List.drop_subset _ _ hm)
    · rename_i hlen'
      refine ⟨?_, hch', hmem⟩
      simp only [List.length_append, List.length_singleton] at hlen' ⊢
      omega
  · exact ⟨hlen, hch, hne⟩

theorem foldl_recent_inv : ∀ (acts : List String) (l : List String),
    recentInv l → recentInv (acts.foldl set_activity_recent l) := by
  intro acts
  induction acts with
  | nil => intro l h; exact h
  | cons a r ih => intro l h; exact ih _ (set_activity_recent_preserves l a h)

/-! ### Claim theorems -/

/-- C1, counterexample: summarizing a shell item whose command is the *list*
`["bash", "-lc", "echo hi"]` does not return `$ echo hi`.  Joining the list
yields `bash -lc echo hi`, which contains no double-quote character, so the
`'"' in cmd` guard of the `-lc` extraction fails and nothing is stripped. -/
theorem shell_list_command_not_stripped :
    get_item_summary shellListItem 60 ≠ .ok (jstr "$ echo hi") := by
  have h : get_item_summary shellListItem 60 = .ok (jstr "$ bash -lc echo hi") := rfl
  rw [h]
  intro heq
  injection heq with h1
  injection h1 with h2
  exact absurd h2 (by decide)

/-- C1, amended: the list command `["bash", "-lc", "echo hi"]` is summarized
as `$ bash -lc echo hi` (flag and payload shown verbatim); the `$ echo hi`
result arises for a *string* command `bash -lc "echo hi"`, whose literal
quotes satisfy the `'"' in cmd` guard so the quoted payload is extracted. -/
theorem shell_command_summary_amended :
    get_item_summary shellListItem 60 = .ok (jstr "$ bash -lc echo hi") ∧
    get_item_summary shellStrItem 60 = .ok (jstr "$ echo hi") :=
  ⟨rfl, rfl⟩

/-- C2: for every string longer than its limit, the `truncate` helper returns
a string of length exactly `limit` plus the length of the `...` marker, and
re-truncating the result at the same limit is a no-op; the status-line clamp
(cut length 77, marker 3, total 80) enjoys the same two properties. -/
theorem truncate_length_and_idempotent :
    (∀ (s : String) (n : Nat), s.length > n →
      ((truncate s n).length = n + "...".length ∧
       truncate (truncate s n) n = truncate s n)) ∧
    (∀ (t : String), t.length > 80 →
      ((statusLineClamp t).length = 77 + "...".length ∧
       statusLineClamp (statusLineClamp t) = statusLineClamp t)) := by
  have h3 : "...".length = 3 := rfl
  have h3d : "...".data.length = 3 := rfl
  constructor
  · intro s n h
    have h' : s.data.length > n := h
    constructor
    · simp only [truncate, if_pos h', h3]
      show (s.data.take n ++ "...".data).length = n + 3
      rw [List.length_append, List.length_take, h3d]
      omega
    · simp only [truncate, if_pos h']
      have hd : (String.mk (s.data.take n) ++ "...").data = s.data.take n ++ "...".data := rfl
      have hlen : (String.mk (s.data.take n) ++ "...").data.length = n + 3 := by
        rw [hd, List.length_append, List.length_take, h3d]
        omega
      rw [if_pos (by omega : (String.mk (s.data.take n) ++ "...").data.length > n), hd]
      have htake : (s.data.take n ++ "...".data).take n = s.data.take n := by
        rw [List.take_append_of_le_length (by rw [List.length_take]; omega), List.take_take]
        simp
      rw [htake]
  · intro t h
    have h' : t.data.length > 80 := h
    constructor
    · simp only [statusLineClamp, if_pos h', h3]
      show (t.data.take 77 ++ "...".data).length = 77 + 3
      rw [List.length_append, List.length_take, h3d]
      omega
    · simp only [statusLineClamp, if_pos h']
      have hlen : (String.mk (t.data.take 77) ++ "...").data.length = 80 := by
        have hd : (String.mk (t.data.take 77) ++ "...").data = t.data.take 77 ++ "...".data := rfl
        rw [hd, List.length_append, List.length_take, h3d]
        omega
      rw [if_neg (by omega)]

/-- C2, witness: the truncation properties evaluated at `"abcdef"` with limit
4 and at a 100-character status line. -/
theorem truncate_length_and_idempotent_witness :
    ("abcdef".length > 4 ∧
      ((truncate "abcdef" 4).length = 4 + "...".length ∧
       truncate (truncate "abcdef" 4) 4 = truncate "abcdef" 4)) ∧
    (longLine.length > 80 ∧
      ((statusLineClamp longLine).length = 77 + "...".length ∧
       statusLineClamp (statusLineClamp longLine) = statusLineClamp longLine)) :=
  ⟨⟨by decide, truncate_length_and_idempotent.1 "abcdef" 4 (by decide)⟩,
   ⟨by decide, truncate_length_and_idempotent.2 longLine (by decide)⟩⟩

/-- C3: a successful item-started handler call followed by a successful
item-completed handler call appends (after an optional forced break of a
previously open line) exactly one opened item line immediately completed by a
close mark — one combined line, zero standalone completed lines; an
item-completed handler call with no open item line appends exactly one
standalone completed line. -/
theorem item_lines_pairing :
    (∀ (p q : List (String × JVal)) (s s1 s2 : PState),
        log_item_started p s = .ok s1 →
        log_item_completed q s1 = .ok s2 →
        ∃ a, s2.out = s.out ++ (if s.itemOpen then [OutEv.breakLine] else [])
              ++ [OutEv.openItem a, OutEv.closeMark true]) ∧
    (∀ (q : List (String × JVal)) (s s' : PState),
        s.itemOpen = false →
        log_item_completed q s = .ok s' →
        ∃ a, s'.out = s.out ++ [OutEv.standaloneItem a]) := by
  constructor
  · intro p q s s1 s2 h1 h2
    obtain ⟨v, hv⟩ := started_ok p s s1 h1
    obtain ⟨w, hw⟩ := completed_ok q s1 s2 h2
    refine ⟨pyStrOf v, ?_⟩
    subst hv
    simp only [emit] at hw ⊢
    rw [hw]
    by_cases hio : s.itemOpen
    · simp [hio, emit]
    · simp [hio, emit]
  · intro q s s' hio h
    obtain ⟨v, hv⟩ := completed_ok q s s' h
    refine ⟨pyStrOf v, ?_⟩
    subst hv
    simp [hio, emit]

/-- C3, witness: the pairing property evaluated on an `exec` item from the
initial non-TTY state (paired open/close, then an unmatched close). -/
theorem item_lines_pairing_witness :
    (log_item_started itemExecPayload initNT
        = .ok { initNT with
                itemOpen := true, hasContent := true,
                out := [OutEv.openItem "exec"] } ∧
     log_item_completed itemExecPayload
        { initNT with itemOpen := true, hasContent := true, out := [OutEv.openItem "exec"] }
        = .ok { initNT with
                itemOpen := false, hasContent := true,
                out := [OutEv.openItem "exec", OutEv.closeMark true] } ∧
     ∃ a, ({ initNT with
              itemOpen := false, hasContent := true,
              out := [OutEv.openItem "exec", OutEv.closeMark true] } : PState).out
        = initNT.out ++ (if initNT.itemOpen then [OutEv.breakLine] else [])
            ++ [OutEv.openItem a, OutEv.closeMark true]) ∧
    (initNT.itemOpen = false ∧
     log_item_completed itemExecPayload initNT
        = .ok (emit initNT (.standaloneItem "exec")) ∧
     ∃ a, (emit initNT (.standaloneItem "exec")).out
        = initNT.out ++ [OutEv.standaloneItem a]) :=
  ⟨⟨rfl, rfl, item_lines_pairing.1 itemExecPayload itemExecPayload initNT _ _ rfl rfl⟩,
   ⟨rfl, rfl, item_lines_pairing.2 itemExecPayload initNT _ rfl rfl⟩⟩

/-- C4: over every sequence of lock-protected blocks (ticker ticks
arbitrarily interleaved with event handling and shutdown) from any state, the
produced output stream is well formed: a status redraw is never emitted while
an item line is open, and an item line opens only after any previous one has
been closed by a completion mark or a forced line break (`wfOut`). -/
theorem status_suppressed_single_open :
    ∀ (a : AState) (acts : List Act), wfOut a.itemOpen (runActs a acts).2 = true :=
  fun a acts => (runActs_wf acts a).1

/-- C5: `_extract_activity` is not total — on the payload
`{"type": "exec.spawn", "command": 5}` the truthy non-sized command reaches
`len(cmd)` and raises `TypeError` (the embedding returns `.error`); on a
payload with no recognized marker it does return `None`. -/
theorem extract_activity_not_total :
    extract_activity [("type", jstr "exec.spawn"), ("command", jnum 5)] = .error () ∧
    extract_activity [("message", jstr "disk full")] = .ok none :=
  ⟨rfl, rfl⟩

/-- C6: `_get_item_summary` is not total — on the item
`{"type": "reasoning", "summary": 5}` the truthy non-sized summary reaches
`len(s)` inside `truncate` and raises `TypeError` (the embedding returns
`.error`). -/
theorem get_item_summary_not_total :
    get_item_summary [("type", jstr "reasoning"), ("summary", jnum 5)] 60 = .error () :=
  rfl

/-- C7: from any non-TTY state with an empty streaming buffer, feeding
`"hello "` then `"world\n"` flushes exactly one content line `hello world`
and leaves the buffer empty. -/
theorem streaming_hello_world : ∀ s : PState, s.curLine = "" → s.isTTY = false →
    ((update_streaming (update_streaming s "hello ") "world\n").out
        = s.out ++ [OutEv.contentLine "hello world" false] ∧
     (update_streaming (update_streaming s "hello ") "world\n").curLine = "") := by
  intro s h1 h2
  obtain ⟨lab, st, act, tok, ev, run, tty, stk, hasc, io, cur, rec, out⟩ := s
  simp only at h1 h2
  subst h1
  subst h2
  exact ⟨rfl, rfl⟩

/-- C7, witness: the streaming scenario evaluated from the initial non-TTY
state. -/
theorem streaming_hello_world_witness :
    initNT.curLine = "" ∧ initNT.isTTY = false ∧
    ((update_streaming (update_streaming initNT "hello ") "world\n").out
        = initNT.out ++ [OutEv.contentLine "hello world" false] ∧
     (update_streaming (update_streaming initNT "hello ") "world\n").curLine = "") :=
  ⟨rfl, rfl, streaming_hello_world initNT rfl rfl⟩

/-- C8: from any non-TTY state, an `error` event with
`payload.message = "disk full"` appends exactly the content line
`[error] disk full` flagged for the error stream, sets the status field to
`error` and clears the activity field (they then stay so until a later
operation changes them, the state being otherwise unchanged except the event
counter). -/
theorem error_event_rendering : ∀ s : PState, s.isTTY = false →
    on_event [("type", jstr "error"), ("payload", jobj [("message", jstr "disk full")])] s
      = .ok { s with
              eventCount := s.eventCount + 1, status := "error", activity := "",
              out := s.out ++ [OutEv.contentLine "[error] disk full" true] } := by
  intro s h
  obtain ⟨lab, st, act, tok, ev, run, tty, stk, hasc, io, cur, rec, out⟩ := s
  simp only at h
  subst h
  rfl

/-- C8, witness: the error-event rendering evaluated at the initial non-TTY
state. -/
theorem error_event_rendering_witness :
    initNT.isTTY = false ∧
    on_event [("type", jstr "error"), ("payload", jobj [("message", jstr "disk full")])] initNT
      = .ok { initNT with
              eventCount := initNT.eventCount + 1, status := "error", activity := "",
              out := initNT.out ++ [OutEv.contentLine "[error] disk full" true] } :=
  ⟨rfl, error_event_rendering initNT rfl⟩

/-- C9: after any sequence of `set_activity` calls starting from the empty
history, the recent-activity list holds at most 10 entries, has no two
consecutive equal entries, and contains no empty entry. -/
theorem recent_activities_invariant :
    ∀ acts : List String, recentInv (acts.foldl set_activity_recent []) :=
  fun acts => foldl_recent_inv acts [] ⟨by simp, by simp, by simp⟩

/-- C10, counterexample: a `user` event whose content list contains no
`tool_result` entry does *not* leave all render state unchanged — the event
counter increments (here from 0 to 1). -/
theorem user_event_changes_event_count :
    on_event (userEvt [jobj [("type", jstr "text")]]) initNT ≠ .ok initNT := by
  have h : on_event (userEvt [jobj [("type", jstr "text")]]) initNT
      = .ok { initNT with eventCount := 1 } := rfl
  rw [h]
  intro heq
  injection heq with h1
  have h2 := congrArg PState.eventCount h1
  simp [initNT] at h2

/-- C10, amended: from any state with no open item line, a Backend-B `user`
event carrying a `tool_result` entry produces no output at all (unlike an
unmatched item-completed event), and one with no `tool_result` entry also
produces no output; in both cases every render-state field is unchanged
except the event counter, which every event increments. -/
theorem user_event_no_output : ∀ s : PState, s.itemOpen = false →
    (on_event (userEvt [jobj [("type", jstr "tool_result")]]) s
        = .ok { s with eventCount := s.eventCount + 1 } ∧
     on_event (userEvt [jobj [("type", jstr "text")]]) s
        = .ok { s with eventCount := s.eventCount + 1 }) := by
  intro s h
  obtain ⟨lab, st, act, tok, ev, run, tty, stk, hasc, io, cur, rec, out⟩ := s
  simp only at h
  subst h
  cases stk <;> refine ⟨?_, ?_⟩ <;> exact collapse_ite (act = "") rfl

/-- C10, witness: the no-output property evaluated at the initial non-TTY
state for both content shapes. -/
theorem user_event_no_output_witness :
    initNT.itemOpen = false ∧
    (on_event (userEvt [jobj [("type", jstr "tool_result")]]) initNT
        = .ok { initNT with eventCount := initNT.eventCount + 1 } ∧
     on_event (userEvt [jobj [("type", jstr "text")]]) initNT
        = .ok { initNT with eventCount := initNT.eventCount + 1 }) :=
  ⟨rfl, user_event_no_output initNT rfl⟩

end Progress
